import Mathlib

/-!
Verification of the `codepipeline-s3-put-action` source (`src/index.ts`).

The five exported functions of `src/index.ts` are shallowly embedded here:
`getS3PutConfigurationFromJob`, `getS3LocationForInputArtifact`,
`resolveObjectKey`, `getBodyFromZippedS3Object`, `copyArtifactResourceToS3`,
plus the orchestration `handlerAsync`.

Modelling conventions:
* Bytes (Node `Buffer`s) are `List Nat`.
* The external collaborators (the S3 object store, the JSZip archive reader,
  UTF-8 decoding of a buffer, and `JSON.parse`) are fields of an `Env` record;
  concrete theorems instantiate them with concrete functions that agree with
  the real collaborators on the inputs used.
* Fallible JavaScript code is embedded as `Except JsError`.
* The regular expressions of the source are embedded by specialised matchers
  whose equations are derived from the backtracking semantics of the two
  concrete patterns; the derivations are justified in the doc comments and by
  the characterisation theorems below.
* JavaScript `String.prototype.replace(stringPattern, replacement)` is
  embedded including its replacement patterns (`$$`, `$&`, the backquote and
  quote forms): the replacement string is interpreted by `GetSubstitution`.
* Property access on JavaScript values is embedded for own properties (plus
  string/array `length` and index properties); the prototype chain
  (e.g. inherited `toString`) is not modelled.
-/

/-- Left curly brace character (written via its code point throughout). -/
def lbrace : Char := Char.ofNat 123

/-- Right curly brace character. -/
def rbrace : Char := Char.ofNat 125

/-- Backquote character, used by the `GetSubstitution` replacement pattern. -/
def backquoteChar : Char := Char.ofNat 96

/-- Single quote character, used by the `GetSubstitution` replacement pattern. -/
def singleQuoteChar : Char := Char.ofNat 39

/-- Errors a run of the embedded JavaScript can end in.  `thrown` is a
`throw new Error(message)` executed by the repository's own code; the other
constructors stand for failures raised by the language runtime or by the
external collaborators. -/
inductive JsError where
  | thrown (message : String)
  | typeError (message : String)
  | referenceError (message : String)
  | s3GetObjectError (bucket key : String)
  | zipLoadError
  | jsonParseError (input : String)
deriving DecidableEq

/-- JavaScript values as far as this program observes them: the possible
results of `JSON.parse` plus `undefined` (absent property reads).  Numbers are
modelled as integers (the program never manipulates fractional values). -/
inductive JsValue where
  | undefined
  | null
  | bool (b : Bool)
  | num (n : Int)
  | str (s : String)
  | arr (elems : List JsValue)
  | obj (fields : List (String × JsValue))

/-- JavaScript truthiness test, negated: `jsFalsy v` is `true` exactly when
`!v` holds in JavaScript (`undefined`, `null`, `false`, `0`, `""`). -/
def jsFalsy : JsValue → Bool
  | .undefined => true
  | .null => true
  | .bool b => !b
  | .num n => n == 0
  | .str s => s == ""
  | .arr _ => false
  | .obj _ => false

mutual

/-- JavaScript `String(value)` coercion on the embedded values. -/
def jsToString : JsValue → String
  | .undefined => "undefined"
  | .null => "null"
  | .bool true => "true"
  | .bool false => "false"
  | .num n => toString n
  | .str s => s
  | .arr es => String.intercalate "," (jsArrayElemStrings es)
  | .obj _ => "[object Object]"

/-- Element strings of `Array.prototype.toString`: `null` and `undefined`
elements become empty strings, other elements are coerced recursively. -/
def jsArrayElemStrings : List JsValue → List String
  | [] => []
  | .null :: rest => "" :: jsArrayElemStrings rest
  | .undefined :: rest => "" :: jsArrayElemStrings rest
  | v :: rest => jsToString v :: jsArrayElemStrings rest

end

/-- Canonical array-index form of a property key: `"0"`, `"1"`, ...
(all digits, no leading zero except `"0"` itself). -/
def canonicalIndex? (key : String) : Option Nat :=
  if key.data ≠ [] ∧ key.data.all Char.isDigit ∧ (key = "0" ∨ key.data.head? ≠ some '0') then
    some (key.data.foldl (fun n c => n * 10 + (c.toNat - 48)) 0)
  else none

/-- JavaScript property read `value[key]`.  Reading from `null`/`undefined`
raises a `TypeError`; a missing own property reads as `undefined`.  Strings and
arrays expose `length` and their index properties.  Properties inherited from
the prototype chain (such as `toString`) are not modelled. -/
def jsGetField (value : JsValue) (key : String) : Except JsError JsValue :=
  match value with
  | .null => .error (.typeError ("Cannot read property '" ++ key ++ "' of null"))
  | .undefined => .error (.typeError ("Cannot read property '" ++ key ++ "' of undefined"))
  | .obj fields => .ok (((fields.find? (fun f => f.1 == key)).map (fun f => f.2)).getD .undefined)
  | .str s =>
    if key = "length" then .ok (.num s.length) else
    match canonicalIndex? key with
    | some i =>
      match s.data.get? i with
      | some c => .ok (.str (String.mk [c]))
      | none => .ok .undefined
    | none => .ok .undefined
  | .arr es =>
    if key = "length" then .ok (.num es.length) else
    match canonicalIndex? key with
    | some i => .ok ((es.get? i).getD .undefined)
    | none => .ok .undefined
  | .num _ => .ok .undefined
  | .bool _ => .ok .undefined

/-- GetSubstitution of `String.prototype.replace` for a string pattern (no
capture groups): in the replacement string, `$$` inserts `$`, `$&` inserts the
matched text, `$` followed by a backquote inserts the part of the subject
before the match, `$` followed by a single quote inserts the part after the
match; every other `$` is literal. -/
def getSubstitution (matched pre post : List Char) : List Char → List Char
  | [] => []
  | c :: rest =>
    if c = '$' then
      match rest with
      | [] => ['$']
      | d :: rest2 =>
        if d = '$' then '$' :: getSubstitution matched pre post rest2
        else if d = '&' then matched ++ getSubstitution matched pre post rest2
        else if d = backquoteChar then pre ++ getSubstitution matched pre post rest2
        else if d = singleQuoteChar then post ++ getSubstitution matched pre post rest2
        else c :: getSubstitution matched pre post (d :: rest2)
    else c :: getSubstitution matched pre post rest

/-- First occurrence of `pat` in a list: `findSplit pat s = some (pre, post)`
with `s = pre ++ pat ++ post` and `pre` shortest, `none` if `pat` does not
occur. -/
def findSplit (pat : List Char) : List Char → Option (List Char × List Char)
  | [] => if pat.isEmpty then some ([], []) else none
  | c :: rest =>
    if pat.isPrefixOf (c :: rest) then some ([], (c :: rest).drop pat.length)
    else
      match findSplit pat rest with
      | some (pre, post) => some (c :: pre, post)
      | none => none

/-- JavaScript `s.replace(pat, repl)` with a string pattern: the first
occurrence of `pat` is replaced by the `GetSubstitution` interpretation of
`repl`; if `pat` does not occur, `s` is returned unchanged. -/
def jsReplace (s pat repl : List Char) : List Char :=
  match findSplit pat s with
  | none => s
  | some (pre, post) => pre ++ getSubstitution pat pre post repl ++ post

/-- Character class `[^:]` of the placeholder regex. -/
def notColon (c : Char) : Bool := c != ':'

/-- Character class `[^}:]` of the placeholder regex. -/
def notColonBrace (c : Char) : Bool := c != ':' && c != rbrace

/-- Character class `[^}]` of the placeholder regex. -/
def notBrace (c : Char) : Bool := c != rbrace

/-- Result of a successful match of the placeholder regex
`\$\{([^:]+)::([^}:]+)(::([^}]+))?\}` (braces unescaped in the source):
the full matched text (`matches[0]`), the artifact name (`matches[1]`), the
file name (`matches[2]`) and the optional JSON key (`matches[4]`). -/
structure PlaceholderMatch where
  matched : List Char
  group1 : List Char
  group2 : List Char
  group4 : Option (List Char)
deriving DecidableEq

/-- Text consumed by the part of the placeholder regex after the second
group: either directly the closing brace, or `::`, the field group and the
closing brace. -/
def tailText : Option (List Char) → List Char
  | none => [rbrace]
  | some dv => ':' :: ':' :: (dv ++ [rbrace])

/-- The placeholder text built from its parsed groups:
`${` artifact `::` file (`::` field)? `}`. -/
def buildPlaceholder (a f : List Char) (d : Option (List Char)) : List Char :=
  '$' :: lbrace :: (a ++ ':' :: ':' :: (f ++ tailText d))

/-- Stage of the placeholder regex after the two mandatory groups: on `r3` the
engine first tries the greedy optional `(::([^}]+))` — whose group, being
followed by `\}`, is forced to be the maximal brace-free run — and otherwise
requires the closing brace directly (if `r3` starts with a single `:` neither
alternative can match, and backtracking into the earlier maximal-run groups is
impossible because a shorter group would be followed by a character its own
class excludes). -/
def placeholderTail (g1 g2 : List Char) (r3 : List Char) : Option PlaceholderMatch :=
  match r3 with
  | c4 :: c5 :: r4 =>
    if c4 = ':' ∧ c5 = ':' then
      let g4 := r4.takeWhile notBrace
      let r5 := r4.dropWhile notBrace
      if g4 = [] then none
      else if r5.head? = some rbrace then
        some { matched := buildPlaceholder g1 g2 (some g4),
               group1 := g1, group2 := g2, group4 := some g4 }
      else none
    else if c4 = rbrace then
      some { matched := buildPlaceholder g1 g2 none,
             group1 := g1, group2 := g2, group4 := none }
    else none
  | [c4] =>
    if c4 = rbrace then
      some { matched := buildPlaceholder g1 g2 none,
             group1 := g1, group2 := g2, group4 := none }
    else none
  | [] => none

/-- Stage of the placeholder regex after the first group: `::` followed by the
second group `([^}:]+)`, which (being followed by `:` or `\}`, both excluded
from its class) is forced to be the maximal run of its class. -/
def placeholderAfterName (g1 : List Char) (r1 : List Char) : Option PlaceholderMatch :=
  match r1 with
  | c2 :: c3 :: r2 =>
    if c2 = ':' ∧ c3 = ':' then
      let g2 := r2.takeWhile notColonBrace
      if g2 = [] then none
      else placeholderTail g1 g2 (r2.dropWhile notColonBrace)
    else none
  | _ => none

/-- Attempt of the placeholder regex `\$\{([^:]+)::([^}:]+)(::([^}]+))?\}` at
the start of `cs`.  The greedy backtracking semantics of the pattern collapses
to this deterministic parse: `([^:]+)`, being followed by `::`, must be the
maximal colon-free run (a shorter group would be followed by a non-colon
character and `::` could not match there). -/
def placeholderMatchHere (cs : List Char) : Option PlaceholderMatch :=
  match cs with
  | c0 :: c1 :: rest =>
    if c0 = '$' ∧ c1 = lbrace then
      let g1 := rest.takeWhile notColon
      if g1 = [] then none
      else placeholderAfterName g1 (rest.dropWhile notColon)
    else none
  | _ => none

/-- Leftmost match of the placeholder regex, as `String.prototype.match`
without the global flag: attempts start at index 0, 1, ... and the first
successful attempt wins. -/
def placeholderFirstMatch : List Char → Option PlaceholderMatch
  | [] => none
  | c :: rest =>
    match placeholderMatchHere (c :: rest) with
    | some m => some m
    | none => placeholderFirstMatch rest

/-- Line terminators of JavaScript regular expressions, which `.` does not
match: LF, CR, LS, PS. -/
def isLineTerminator (c : Char) : Bool :=
  c = Char.ofNat 10 || c = Char.ofNat 13 || c = Char.ofNat 0x2028 || c = Char.ofNat 0x2029

/-- Match of the anchored pattern `^([^:]+)::(.+)$` used by
`copyArtifactResourceToS3`.  Backtracking again collapses: group 1 must be the
maximal colon-free prefix (a shorter group is followed by a non-colon), the
next two characters must be `::`, and `(.+)$` consumes the entire remainder,
which must be non-empty and free of line terminators (`.` matches neither). -/
def copyRegexMatch (cs : List Char) : Option (List Char × List Char) :=
  let a := cs.takeWhile notColon
  let r := cs.dropWhile notColon
  if a = [] then none else
  match r with
  | c0 :: c1 :: rest =>
    if c0 = ':' ∧ c1 = ':' then
      if rest ≠ [] ∧ rest.all (fun c => !isLineTerminator c) then some (a, rest) else none
    else none
  | _ => none

/-- An S3 location of a CodePipeline artifact (`CodePipelineS3Location`). -/
structure CodePipelineS3Location where
  bucketName : String
  objectKey : String
deriving DecidableEq

/-- The `location` field of an input artifact. -/
structure ArtifactLocation where
  s3Location : CodePipelineS3Location
deriving DecidableEq

/-- One entry of `job.data.inputArtifacts`. -/
structure InputArtifact where
  name : String
  location : ArtifactLocation
deriving DecidableEq

/-- The `configuration` record of the job's action configuration; only
`UserParameters` is read by the program. -/
structure ActionConfigurationValues where
  UserParameters : String
deriving DecidableEq

/-- The job's `actionConfiguration`. -/
structure JobActionConfiguration where
  configuration : ActionConfigurationValues
deriving DecidableEq

/-- The `data` field of a CodePipeline job, as far as the program reads it. -/
structure JobData where
  actionConfiguration : JobActionConfiguration
  inputArtifacts : List InputArtifact
deriving DecidableEq

/-- A CodePipeline job (`CodePipelineJob`). -/
structure CodePipelineJob where
  jobId : String
  data : JobData
deriving DecidableEq

/-- The Lambda event; `job` is `event["CodePipeline.job"]`, `none` when the
property is absent. -/
structure CodePipelineEvent where
  job : Option CodePipelineJob
deriving DecidableEq

/-- The Lambda context; only `awsRequestId` is read. -/
structure LambdaContext where
  awsRequestId : String
deriving DecidableEq

/-- The external collaborators of the program: the S3 object store (keyed by
bucket and key, bodies are byte lists), the zip reader (`JSZip.loadAsync`
followed by member extraction, `none` on data that is not a zip archive),
UTF-8 decoding of a buffer (`Buffer.prototype.toString("utf-8")`) and
`JSON.parse` (`none` models a `SyntaxError`). -/
structure Env where
  store : List ((String × String) × List Nat)
  unzip : List Nat → Option (List (String × List Nat))
  utf8 : List Nat → String
  jsonParse : String → Option JsValue

/-- Body of the object at `(bucket, key)` in the store, if present. -/
def s3GetObject (env : Env) (bucket key : String) : Option (List Nat) :=
  ((env.store.find? (fun e => e.1.1 == bucket && e.1.2 == key)).map (fun e => e.2))

/-- The store after `s3.putObject({Bucket, Key, Body})`: the new binding
shadows any previous object under the same bucket and key. -/
def putStoreObject (env : Env) (bucket key : String) (body : List Nat) : Env :=
  { env with store := ((bucket, key), body) :: env.store }

/-- Embedding of `getS3PutConfigurationFromJob` (src/index.ts lines 47-49):
`JSON.parse(job.data.actionConfiguration.configuration.UserParameters)`.
The `as S3PutConfiguration` type assertion of the source has no runtime
effect: the parsed value is returned without any field validation. -/
def getS3PutConfigurationFromJob (env : Env) (job : CodePipelineJob) : Except JsError JsValue :=
  match env.jsonParse job.data.actionConfiguration.configuration.UserParameters with
  | some v => .ok v
  | none => .error (.jsonParseError job.data.actionConfiguration.configuration.UserParameters)

/-- Embedding of `getS3LocationForInputArtifact` (src/index.ts lines 51-58):
`job.data.inputArtifacts.find(artifact => artifact.name == artifactName)`,
returning its `location.s3Location` or `null`.  The `job` argument is an
`Option` because the callers may pass `null`; dereferencing `null.data` is a
`TypeError`. -/
def getS3LocationForInputArtifact (artifactName : String) (job : Option CodePipelineJob) :
    Except JsError (Option CodePipelineS3Location) :=
  match job with
  | none => .error (.typeError "Cannot read property 'data' of null")
  | some job =>
    match job.data.inputArtifacts.find? (fun artifact => artifact.name == artifactName) with
    | some artifact => .ok (some artifact.location.s3Location)
    | none => .ok none

/-- JavaScript truthiness of a Node `Buffer`: a `Buffer` is an object and is
always truthy, so the `if (!fileBody)` guards of the source are dead code. -/
def bufferFalsy (_ : List Nat) : Bool := false

/-- Embedding of `getBodyFromZippedS3Object` (src/index.ts lines 93-110):
fetch the object at `(bucketName, key)` from S3, load it as a zip archive,
and return the decompressed bytes of the member named `filename`, throwing
`Unable to get file from artifact object. ...` when the member is absent. -/
def getBodyFromZippedS3Object (env : Env) (bucketName key filename : String) :
    Except JsError (List Nat) :=
  match s3GetObject env bucketName key with
  | none => .error (.s3GetObjectError bucketName key)
  | some s3ObjectBody =>
    match env.unzip s3ObjectBody with
    | none => .error .zipLoadError
    | some zip =>
      match (zip.find? (fun f => f.1 == filename)).map (fun f => f.2) with
      | none => .error (.thrown ("Unable to get file from artifact object. File '" ++ filename ++ "' was not found."))
      | some file => .ok file

/-- Embedding of `resolveObjectKey` (src/index.ts lines 60-91).  The template
is matched against the placeholder regex; without a match it is returned
unchanged.  On a match the artifact is located, the named member fetched; with
no JSON key the member's UTF-8 text is returned directly (note: not
substituted into the template), otherwise the member is JSON-parsed, the key
read, falsy values rejected (`Invalid resource for key '...` — the source
template literal lacks the closing quote), and the placeholder replaced by the
coerced value via `String.prototype.replace`. -/
def resolveObjectKey (env : Env) (objectKey : String) (job : Option CodePipelineJob) :
    Except JsError String :=
  match placeholderFirstMatch objectKey.data with
  | some m =>
    let artifactName := String.mk m.group1
    let fileName := String.mk m.group2
    match getS3LocationForInputArtifact artifactName job with
    | .error e => .error e
    | .ok none => .error (.thrown ("Invalid resource for key '" ++ objectKey ++ "'"))
    | .ok (some s3Location) =>
      match getBodyFromZippedS3Object env s3Location.bucketName s3Location.objectKey fileName with
      | .error e => .error e
      | .ok fileBody =>
        if bufferFalsy fileBody then
          .error (.thrown ("Invalid resource for key '" ++ objectKey ++ "'"))
        else
          match m.group4 with
          | none => .ok (env.utf8 fileBody)
          | some jsonKeyChars =>
            let jsonKey := String.mk jsonKeyChars
            match env.jsonParse (env.utf8 fileBody) with
            | none => .error (.jsonParseError (env.utf8 fileBody))
            | some fileJson =>
              match jsGetField fileJson jsonKey with
              | .error e => .error e
              | .ok value =>
                if jsFalsy value then
                  .error (.thrown ("Invalid resource for key '" ++ objectKey))
                else
                  .ok (String.mk (jsReplace objectKey.data m.matched (jsToString value).data))
  | none => .ok objectKey

/-- Embedding of `copyArtifactResourceToS3` (src/index.ts lines 112-138):
parse `objectPath` against `^([^:]+)::(.+)$`, locate the artifact, fetch the
member, and `putObject` its bytes at the destination.  The returned `Env` is
the store after the write. -/
def copyArtifactResourceToS3 (env : Env) (objectPath destinationBucketName destinationObjectKey : String)
    (job : Option CodePipelineJob) : Except JsError Env :=
  match copyRegexMatch objectPath.data with
  | none => .error (.thrown ("Unable to resolve resource artifact location from '" ++ objectPath ++ "'"))
  | some (artifactNameChars, fileNameChars) =>
    let artifactName := String.mk artifactNameChars
    let fileName := String.mk fileNameChars
    match getS3LocationForInputArtifact artifactName job with
    | .error e => .error e
    | .ok none => .error (.thrown ("Invalid resource for key '" ++ objectPath))
    | .ok (some s3Location) =>
      match getBodyFromZippedS3Object env s3Location.bucketName s3Location.objectKey fileName with
      | .error e => .error e
      | .ok fileBody =>
        if bufferFalsy fileBody then
          .error (.thrown ("Invalid resource for key '" ++ objectPath ++ "'"))
        else
          .ok (putStoreObject env destinationBucketName destinationObjectKey fileBody)

/-- Group constraints of the source regex
`\$\{([^:]+)::([^}:]+)(::([^}]+))?\}`: the artifact name is a non-empty run
without `:` (it may contain `}` or `{`), the file name a non-empty run without
`:` and `}`, the optional field a non-empty run without `}`. -/
def ValidGroups (a f : List Char) (d : Option (List Char)) : Prop :=
  a ≠ [] ∧ (∀ c ∈ a, c ≠ ':') ∧ f ≠ [] ∧ (∀ c ∈ f, c ≠ ':' ∧ c ≠ rbrace) ∧
    ∀ dv, d = some dv → dv ≠ [] ∧ ∀ c ∈ dv, c ≠ rbrace

/-- A list of characters that is exactly a placeholder in the sense of the
source regex. -/
def CodeShape (p : List Char) : Prop :=
  ∃ a f d, ValidGroups a f d ∧ p = buildPlaceholder a f d

/-- Modelled from the spec (§3): artifact-name constraint of the claimed
placeholder grammar — non-empty, excluding both `:` and `}`. -/
def specNameOk (a : List Char) : Bool :=
  !a.isEmpty && a.all (fun c => c != ':' && c != rbrace)

/-- Modelled from the spec (§3): file-name constraint — non-empty, excluding
`:` and `}`. -/
def specFileOk (f : List Char) : Bool :=
  !f.isEmpty && f.all (fun c => c != ':' && c != rbrace)

/-- Modelled from the spec (§3): field-name constraint — non-empty, excluding
`}`. -/
def specFieldOk (d : List Char) : Bool :=
  !d.isEmpty && d.all (fun c => c != rbrace)

/-- Modelled from the spec (§3): whether `p` is exactly a placeholder of the
claimed grammar `${artifactName::fileName(::fieldName)?}` with the spec's
character exclusions, decided by brute force over all split points. -/
def specPlaceholderB (p : List Char) : Bool :=
  match p with
  | c0 :: c1 :: rest =>
    c0 == '$' && c1 == lbrace &&
    (match rest.getLast? with
     | some cl =>
       cl == rbrace &&
       (let inner := rest.dropLast
        (List.range (inner.length + 1)).any (fun i =>
          specNameOk (inner.take i) &&
          match inner.drop i with
          | c2 :: c3 :: t =>
            c2 == ':' && c3 == ':' &&
            (specFileOk t ||
             (List.range (t.length + 1)).any (fun j =>
               specFileOk (t.take j) &&
               match t.drop j with
               | c4 :: c5 :: dv => c4 == ':' && c5 == ':' && specFieldOk dv
               | _ => false))
          | _ => false))
     | none => false)
  | _ => false

/-- Modelled from the spec (§3): whether some substring of `s` is a
placeholder of the claimed grammar, decided by brute force over all
substrings. -/
def specContainsPlaceholderB (s : List Char) : Bool :=
  (List.range (s.length + 1)).any (fun i =>
    (List.range (s.length + 1)).any (fun n => specPlaceholderB ((s.drop i).take n)))

/-- Byte list of an ASCII string (used to populate concrete archives). -/
def bytesOfAscii (s : String) : List Nat := s.data.map Char.toNat

/-- Concrete UTF-8 decoder instance: agrees with
`Buffer.prototype.toString("utf-8")` on ASCII bytes, which is all the
concrete theorems below use. -/
def asciiDecode (bs : List Nat) : String := String.mk (bs.map Char.ofNat)

/-- A job with a single input artifact `A` stored at bucket `b`, key `k`, and
user parameters `{}`. -/
def jobA : CodePipelineJob :=
  { jobId := "job-1",
    data := { actionConfiguration := { configuration := { UserParameters := "\x7b\x7d" } },
              inputArtifacts :=
                [ { name := "A",
                    location := { s3Location := { bucketName := "b", objectKey := "k" } } } ] } }

/-- A job with no input artifacts. -/
def jobEmpty : CodePipelineJob :=
  { jobId := "job-0",
    data := { actionConfiguration := { configuration := { UserParameters := "" } },
              inputArtifacts := [] } }

/-- A job whose input-artifact list has two entries named `A` with different
locations, then an unrelated artifact. -/
def jobDup : CodePipelineJob :=
  { jobId := "job-2",
    data := { actionConfiguration := { configuration := { UserParameters := "" } },
              inputArtifacts :=
                [ { name := "B",
                    location := { s3Location := { bucketName := "b0", objectKey := "k0" } } },
                  { name := "A",
                    location := { s3Location := { bucketName := "b1", objectKey := "k1" } } },
                  { name := "A",
                    location := { s3Location := { bucketName := "b2", objectKey := "k2" } } } ] } }

/-- Concrete environment: the object at `(b, k)` is the two marker bytes
`80, 75`, which the zip oracle opens as an archive with a single member `f`
containing the single byte `49` (ASCII `"1"`).  `JSON.parse` is the empty
oracle (never called by the theorems using this environment). -/
def envText : Env :=
  { store := [(("b", "k"), [80, 75])],
    unzip := fun bs => if bs = [80, 75] then some [("f", [49])] else none,
    utf8 := asciiDecode,
    jsonParse := fun _ => none }

/-- The JSON text of the archive member used by the field-resolution
counterexample: an object whose key `k` has the string value `$$`. -/
def jsonTextDollar : String := "\x7b\"k\":\"$$\"\x7d"

/-- Concrete environment for the field path: member `f.json` of the archive at
`(b, k)` holds `jsonTextDollar`, and `JSON.parse` maps exactly that text to
the corresponding object. -/
def envDollar : Env :=
  { store := [(("b", "k"), [80, 75])],
    unzip := fun bs => if bs = [80, 75] then some [("f.json", bytesOfAscii jsonTextDollar)] else none,
    utf8 := asciiDecode,
    jsonParse := fun s =>
      if s = jsonTextDollar then some (JsValue.obj [("k", JsValue.str "$$")]) else none }

/-- The JSON text `{"version":"1"}` used by the witness environment. -/
def jsonTextVersion : String := "\x7b\"version\":\"1\"\x7d"

/-- Concrete environment mirroring the repository's test fixture: member
`build.json` of the archive at `(b, k)` holds `{"version":"1"}`. -/
def envVersion : Env :=
  { store := [(("b", "k"), [80, 75])],
    unzip := fun bs =>
      if bs = [80, 75] then some [("build.json", bytesOfAscii jsonTextVersion)] else none,
    utf8 := asciiDecode,
    jsonParse := fun s =>
      if s = jsonTextVersion then some (JsValue.obj [("version", JsValue.str "1")]) else none }

/-- Environment whose `JSON.parse` oracle accepts only the text `{}` (the
empty object) and whose store is empty. -/
def envEmptyObj : Env :=
  { store := [],
    unzip := fun _ => none,
    utf8 := asciiDecode,
    jsonParse := fun s => if s = "\x7b\x7d" then some (JsValue.obj []) else none }

/-- Environment all of whose oracles fail: empty store, rejecting zip loader,
rejecting JSON parser. -/
def envFailing : Env :=
  { store := [],
    unzip := fun _ => none,
    utf8 := asciiDecode,
    jsonParse := fun _ => none }

/-- Report delivered to CodePipeline: `putJobSuccessResult` or
`putJobFailureResult` (with failure details). -/
inductive PipelineReport where
  | success (jobId : String)
  | failure (jobId : String) (failureType message externalExecutionId : String)
deriving DecidableEq

/-- The property read `v.match` / SDK string-parameter validation when a
configuration field supposed to be a string is something else: only strings
pass. -/
def requireJsString (v : JsValue) : Except JsError String :=
  match v with
  | .str s => .ok s
  | _ => .error (.typeError "value is not a string")

/-- The body of the `try` block of `handlerAsync` (src/index.ts lines 24-33):
read the job off the event, decode the configuration, resolve the object key,
copy the artifact resource, and succeed with the written store and the job id
used for `putJobSuccessResult`. -/
def handlerAsyncTry (env : Env) (event : CodePipelineEvent) : Except JsError (Env × String) :=
  match event.job with
  | none => .error (.typeError "Cannot read property 'data' of undefined")
  | some job =>
    match getS3PutConfigurationFromJob env job with
    | .error e => .error e
    | .ok s3PutConfiguration =>
      match jsGetField s3PutConfiguration "ObjectKey" with
      | .error e => .error e
      | .ok objectKeyValue =>
        match requireJsString objectKeyValue with
        | .error e => .error e
        | .ok objectKeyTemplate =>
          match resolveObjectKey env objectKeyTemplate (some job) with
          | .error e => .error e
          | .ok resolvedObjectKey =>
            match jsGetField s3PutConfiguration "ObjectPath" with
            | .error e => .error e
            | .ok objectPathValue =>
              match requireJsString objectPathValue with
              | .error e => .error e
              | .ok objectPath =>
                match jsGetField s3PutConfiguration "BucketName" with
                | .error e => .error e
                | .ok bucketNameValue =>
                  match requireJsString bucketNameValue with
                  | .error e => .error e
                  | .ok bucketName =>
                    match copyArtifactResourceToS3 env objectPath bucketName resolvedObjectKey (some job) with
                    | .error e => .error e
                    | .ok env2 => .ok (env2, job.jobId)

/-- Embedding of `handlerAsync` (src/index.ts lines 23-45).  On success a
`putJobSuccessResult` report is issued.  The `catch` block, however, reads
`job.jobId` although `job` is a `const` declared inside the `try` block and
out of scope in the `catch` block (TypeScript reports TS2304 "Cannot find
name 'job'" at line 36); under block-scoping semantics every failure of the
try body therefore raises `ReferenceError: job is not defined` before
`putJobFailureResult` can be called, and the invocation rejects without any
report being delivered.  `context.awsRequestId` is likewise only read on that
unreachable path. -/
def handlerAsync (env : Env) (event : CodePipelineEvent) (context : LambdaContext) :
    Except JsError (Env × PipelineReport) :=
  match handlerAsyncTry env event with
  | .ok (env2, jobId) => .ok (env2, PipelineReport.success jobId)
  | .error _ => .error (.referenceError "job is not defined")

/-! ### Characterisation of the placeholder matcher -/

/-- The field-group constraint of `ValidGroups`, isolated. -/
def FieldGroupOk (d : Option (List Char)) : Prop :=
  ∀ dv, d = some dv → dv ≠ [] ∧ ∀ c ∈ dv, c ≠ rbrace

theorem notColon_iff {c : Char} : notColon c = true ↔ c ≠ ':' := by
  simp [notColon]

theorem notColonBrace_iff {c : Char} : notColonBrace c = true ↔ (c ≠ ':' ∧ c ≠ rbrace) := by
  simp [notColonBrace]

theorem notBrace_iff {c : Char} : notBrace c = true ↔ c ≠ rbrace := by
  simp [notBrace]

/-- Take/drop of a run all of whose elements satisfy `p`, followed by an
element that does not. -/
theorem takeWhile_stop (p : Char → Bool) (a : List Char) (c : Char) (t : List Char)
    (ha : ∀ x ∈ a, p x = true) (hc : p c = false) :
    (a ++ c :: t).takeWhile p = a ∧ (a ++ c :: t).dropWhile p = c :: t := by
  induction a with
  | nil => simp [List.takeWhile_cons, List.dropWhile_cons, hc]
  | cons x xs ih =>
    have hx : p x = true := ha x (by simp)
    have ih2 := ih (fun y hy => ha y (by simp [hy]))
    simp [List.takeWhile_cons, List.dropWhile_cons, hx, ih2.1, ih2.2]

/-- A match without a field group satisfies the field-group constraint
vacuously. -/
theorem fieldGroupOk_none : FieldGroupOk none := fun _ hdv => nomatch hdv

theorem placeholderTail_sound {g1 g2 r3 : List Char} {m : PlaceholderMatch}
    (h : placeholderTail g1 g2 r3 = some m) :
    m.group1 = g1 ∧ m.group2 = g2 ∧
      m.matched = buildPlaceholder g1 g2 m.group4 ∧ FieldGroupOk m.group4 ∧
      ∃ tail, r3 = tailText m.group4 ++ tail := by
  match r3 with
  | [] => simp [placeholderTail] at h
  | [c4] =>
    simp only [placeholderTail] at h
    by_cases h4 : c4 = rbrace
    · rw [if_pos h4] at h
      cases h
      subst h4
      exact ⟨rfl, rfl, rfl, fieldGroupOk_none, [], by simp [tailText]⟩
    · rw [if_neg h4] at h; cases h
  | c4 :: c5 :: r4 =>
    simp only [placeholderTail] at h
    by_cases h45 : c4 = ':' ∧ c5 = ':'
    · rw [if_pos h45] at h
      by_cases hg4 : r4.takeWhile notBrace = []
      · rw [if_pos hg4] at h; cases h
      · rw [if_neg hg4] at h
        by_cases h5 : (r4.dropWhile notBrace).head? = some rbrace
        · rw [if_pos h5] at h
          cases h
          obtain ⟨hc4, hc5⟩ := h45
          subst hc4; subst hc5
          refine ⟨rfl, rfl, rfl, ?_, ?_⟩
          · intro dv hdv
            cases hdv
            exact ⟨hg4, fun c hc => notBrace_iff.mp (List.mem_takeWhile_imp hc)⟩
          · obtain ⟨t5, ht5⟩ : ∃ t5, r4.dropWhile notBrace = rbrace :: t5 := by
              cases hdw : r4.dropWhile notBrace with
              | nil => rw [hdw] at h5; simp at h5
              | cons x xs =>
                rw [hdw] at h5
                simp only [List.head?] at h5
                exact ⟨xs, by rw [Option.some_inj.mp h5]⟩
            refine ⟨t5, ?_⟩
            have hsplit : r4.takeWhile notBrace ++ r4.dropWhile notBrace = r4 :=
              List.takeWhile_append_dropWhile notBrace r4
            rw [ht5] at hsplit
            rw [← hsplit]
            simp [tailText]
            exact ((takeWhile_stop notBrace _ rbrace t5
              (fun x hx => List.mem_takeWhile_imp hx) (by simp [notBrace])).1).symm
        · rw [if_neg h5] at h; cases h
    · rw [if_neg h45] at h
      by_cases h4 : c4 = rbrace
      · rw [if_pos h4] at h
        cases h
        subst h4
        exact ⟨rfl, rfl, rfl, fieldGroupOk_none, ⟨c5 :: r4, by simp [tailText]⟩⟩
      · rw [if_neg h4] at h; cases h


theorem placeholderTail_complete (g1 g2 : List Char) (d : Option (List Char)) (tail : List Char)
    (hd : FieldGroupOk d) :
    placeholderTail g1 g2 (tailText d ++ tail) =
      some { matched := buildPlaceholder g1 g2 d, group1 := g1, group2 := g2, group4 := d } := by
  cases d with
  | none =>
    cases tail with
    | nil =>
      simp only [tailText, List.singleton_append]
      simp [placeholderTail]
    | cons t ts =>
      simp only [tailText, List.singleton_append]
      simp only [placeholderTail]
      rw [if_neg (fun hc => absurd hc.1 (by decide))]
      simp
  | some dv =>
    obtain ⟨hdv1, hdv2⟩ := hd dv rfl
    have hstop := takeWhile_stop notBrace dv rbrace tail
      (fun x hx => notBrace_iff.mpr (hdv2 x hx)) (by simp [notBrace])
    have harr : tailText (some dv) ++ tail = ':' :: ':' :: (dv ++ rbrace :: tail) := by
      simp [tailText]
    rw [harr]
    simp only [placeholderTail]
    simp [hstop.1, hstop.2, hdv1, List.head?]

theorem placeholderAfterName_sound {g1 r1 : List Char} {m : PlaceholderMatch}
    (h : placeholderAfterName g1 r1 = some m) :
    m.group1 = g1 ∧ m.matched = buildPlaceholder g1 m.group2 m.group4 ∧
      m.group2 ≠ [] ∧ (∀ c ∈ m.group2, c ≠ ':' ∧ c ≠ rbrace) ∧ FieldGroupOk m.group4 ∧
      ∃ tail, r1 = ':' :: ':' :: (m.group2 ++ (tailText m.group4 ++ tail)) := by
  match r1 with
  | [] => simp [placeholderAfterName] at h
  | [c2] => simp [placeholderAfterName] at h
  | c2 :: c3 :: r2 =>
    simp only [placeholderAfterName] at h
    by_cases h23 : c2 = ':' ∧ c3 = ':'
    · rw [if_pos h23] at h
      by_cases hg2 : r2.takeWhile notColonBrace = []
      · rw [if_pos hg2] at h; cases h
      · rw [if_neg hg2] at h
        obtain ⟨ht1, ht2, ht3, htok, tail, htail⟩ := placeholderTail_sound h
        obtain ⟨hc2, hc3⟩ := h23; subst hc2; subst hc3
        rw [← ht2] at ht3 hg2
        refine ⟨ht1, ht3, hg2, ?_, htok, tail, ?_⟩
        · intro c hc
          exact notColonBrace_iff.mp (List.mem_takeWhile_imp (ht2 ▸ hc))
        · have hsplit : r2.takeWhile notColonBrace ++ r2.dropWhile notColonBrace = r2 :=
            List.takeWhile_append_dropWhile notColonBrace r2
          rw [htail, ← ht2] at hsplit
          rw [← hsplit]
    · rw [if_neg h23] at h; cases h

theorem placeholderAfterName_complete (g1 g2 : List Char) (d : Option (List Char)) (tail : List Char)
    (hg2ne : g2 ≠ []) (hg2mem : ∀ c ∈ g2, c ≠ ':' ∧ c ≠ rbrace) (hd : FieldGroupOk d) :
    placeholderAfterName g1 (':' :: ':' :: (g2 ++ (tailText d ++ tail))) =
      some { matched := buildPlaceholder g1 g2 d, group1 := g1, group2 := g2, group4 := d } := by
  have hfirst : ∃ c rest, tailText d ++ tail = c :: rest ∧ notColonBrace c = false := by
    cases d with
    | none => exact ⟨rbrace, tail, by simp [tailText], by simp [notColonBrace]⟩
    | some dv => exact ⟨':', ':' :: (dv ++ rbrace :: tail), by simp [tailText], by simp [notColonBrace]⟩
  obtain ⟨c, rest, hcr, hcfalse⟩ := hfirst
  have hstop := takeWhile_stop notColonBrace g2 c rest
    (fun x hx => notColonBrace_iff.mpr (hg2mem x hx)) hcfalse
  simp only [placeholderAfterName, if_true]
  rw [hcr, hstop.1, hstop.2, if_neg hg2ne, ← hcr]
  exact placeholderTail_complete g1 g2 d tail hd

theorem placeholderMatchHere_sound {cs : List Char} {m : PlaceholderMatch}
    (h : placeholderMatchHere cs = some m) :
    ValidGroups m.group1 m.group2 m.group4 ∧
      m.matched = buildPlaceholder m.group1 m.group2 m.group4 ∧
      ∃ tail, cs = m.matched ++ tail := by
  match cs with
  | [] => simp [placeholderMatchHere] at h
  | [c0] => simp [placeholderMatchHere] at h
  | c0 :: c1 :: rest =>
    simp only [placeholderMatchHere] at h
    by_cases h01 : c0 = '$' ∧ c1 = lbrace
    · rw [if_pos h01] at h
      by_cases hg1 : rest.takeWhile notColon = []
      · rw [if_pos hg1] at h; cases h
      · rw [if_neg hg1] at h
        obtain ⟨hn1, hnm, hn2ne, hn2mem, hnok, tail, htail⟩ := placeholderAfterName_sound h
        obtain ⟨hc0, hc1⟩ := h01; subst hc0; subst hc1
        rw [← hn1] at hnm hg1
        refine ⟨⟨hg1, ?_, hn2ne, hn2mem, hnok⟩, hnm, tail, ?_⟩
        · intro c hc
          exact notColon_iff.mp (List.mem_takeWhile_imp (hn1 ▸ hc))
        · have hsplit : rest.takeWhile notColon ++ rest.dropWhile notColon = rest :=
            List.takeWhile_append_dropWhile notColon rest
          rw [htail, ← hn1] at hsplit
          rw [hnm]
          simp only [buildPlaceholder, List.cons_append]
          rw [← hsplit]
          simp [List.append_assoc]
    · rw [if_neg h01] at h; cases h

theorem placeholderMatchHere_complete (a f : List Char) (d : Option (List Char)) (tail : List Char)
    (hv : ValidGroups a f d) :
    placeholderMatchHere (buildPlaceholder a f d ++ tail) =
      some { matched := buildPlaceholder a f d, group1 := a, group2 := f, group4 := d } := by
  obtain ⟨ha1, ha2, hf1, hf2, hd⟩ := hv
  have harr : buildPlaceholder a f d ++ tail =
      '$' :: lbrace :: (a ++ ':' :: ':' :: (f ++ (tailText d ++ tail))) := by
    simp [buildPlaceholder, List.append_assoc]
  rw [harr]
  have hstop := takeWhile_stop notColon a ':'
    (':' :: (f ++ (tailText d ++ tail))) (fun x hx => notColon_iff.mpr (ha2 x hx))
    (by simp [notColon])
  simp only [placeholderMatchHere, if_true]
  rw [hstop.1, hstop.2, if_neg ha1]
  exact placeholderAfterName_complete a f d tail hf1 hf2 hd

theorem placeholderFirstMatch_sound {s : List Char} {m : PlaceholderMatch}
    (h : placeholderFirstMatch s = some m) :
    ValidGroups m.group1 m.group2 m.group4 ∧
      m.matched = buildPlaceholder m.group1 m.group2 m.group4 ∧
      ∃ pre post, s = pre ++ m.matched ++ post ∧
        ∀ pre2 p2 post2, s = pre2 ++ p2 ++ post2 → CodeShape p2 → pre.length ≤ pre2.length := by
  induction s with
  | nil => simp [placeholderFirstMatch] at h
  | cons c rest ih =>
    simp only [placeholderFirstMatch] at h
    cases hm : placeholderMatchHere (c :: rest) with
    | some m1 =>
      simp only [hm] at h
      injection h with h1
      subst h1
      obtain ⟨hvg, hbuild, tail, htail⟩ := placeholderMatchHere_sound hm
      refine ⟨hvg, hbuild, [], tail, by simpa using htail, ?_⟩
      intro pre2 p2 post2 _ _
      exact Nat.zero_le _
    | none =>
      simp only [hm] at h
      obtain ⟨hvg, hbuild, pre, post, hdecomp, hmin⟩ := ih h
      refine ⟨hvg, hbuild, c :: pre, post, by simp [hdecomp], ?_⟩
      intro pre2 p2 post2 hs hshape
      cases pre2 with
      | nil =>
        exfalso
        simp only [List.nil_append] at hs
        obtain ⟨a, f, d, hvg2, hp2⟩ := hshape
        rw [hp2] at hs
        have hc := placeholderMatchHere_complete a f d post2 hvg2
        rw [← hs] at hc
        rw [hm] at hc
        cases hc
      | cons c2 pre2t =>
        have hrest : rest = pre2t ++ p2 ++ post2 := by
          have := hs
          simp only [List.cons_append] at this
          injection this with _ h2
        have := hmin pre2t p2 post2 hrest hshape
        simpa using Nat.succ_le_succ this

theorem placeholderFirstMatch_none {s : List Char} (h : placeholderFirstMatch s = none) :
    ∀ pre p post, s = pre ++ p ++ post → ¬ CodeShape p := by
  induction s with
  | nil =>
    intro pre p post hs hshape
    obtain ⟨a, f, d, hvg, hp⟩ := hshape
    have hpnil : p = [] := by
      rcases List.append_eq_nil.mp (List.append_eq_nil.mp hs.symm).1 with ⟨-, h2⟩
      exact h2
    rw [hp] at hpnil
    simp [buildPlaceholder] at hpnil
  | cons c rest ih =>
    intro pre p post hs hshape
    simp only [placeholderFirstMatch] at h
    cases hm : placeholderMatchHere (c :: rest) with
    | some m1 => simp [hm] at h
    | none =>
      simp only [hm] at h
      cases pre with
      | nil =>
        simp only [List.nil_append] at hs
        obtain ⟨a, f, d, hvg, hp⟩ := hshape
        rw [hp] at hs
        have hc := placeholderMatchHere_complete a f d post hvg
        rw [← hs] at hc
        rw [hm] at hc
        cases hc
      | cons c2 pret =>
        have hrest : rest = pret ++ p ++ post := by
          have := hs
          simp only [List.cons_append] at this
          injection this with _ h2
        exact ih h pret p post hrest hshape

/-- C2 (amended): `resolveObjectKey` recognizes as a placeholder exactly the
substrings of the shape `${artifactName::fileName(::fieldName)?}` where the
artifact name excludes only `:` (it may contain `}` or `{`), the file name
excludes `:` and `}`, and the optional field name excludes `}`; only the
leftmost such substring is matched (and hence processed), and a template with
no such substring is returned unchanged for every environment and job. -/
theorem resolveObjectKey_placeholder_recognition (s : String) :
    (placeholderFirstMatch s.data = none ↔
      ¬ ∃ pre p post, s.data = pre ++ p ++ post ∧ CodeShape p)
    ∧ (∀ m, placeholderFirstMatch s.data = some m →
        CodeShape m.matched ∧
        ∃ pre post, s.data = pre ++ m.matched ++ post ∧
          ∀ pre2 p2 post2, s.data = pre2 ++ p2 ++ post2 → CodeShape p2 →
            pre.length ≤ pre2.length)
    ∧ (∀ env job, placeholderFirstMatch s.data = none →
        resolveObjectKey env s job = .ok s) := by
  refine ⟨⟨?_, ?_⟩, ?_, ?_⟩
  · intro h
    rintro ⟨pre, p, post, hdecomp, hshape⟩
    exact placeholderFirstMatch_none h pre p post hdecomp hshape
  · intro h
    cases hfm : placeholderFirstMatch s.data with
    | none => rfl
    | some m =>
      exfalso
      obtain ⟨hvg, hbuild, pre, post, hdecomp, -⟩ := placeholderFirstMatch_sound hfm
      exact h ⟨pre, m.matched, post, hdecomp, m.group1, m.group2, m.group4, hvg, hbuild⟩
  · intro m hm
    obtain ⟨hvg, hbuild, pre, post, hdecomp, hmin⟩ := placeholderFirstMatch_sound hm
    exact ⟨⟨m.group1, m.group2, m.group4, hvg, hbuild⟩, pre, post, hdecomp, hmin⟩
  · intro env job h
    simp only [resolveObjectKey, h]

/-- C5 (amended): for every template whose text contains no match of the
source's placeholder regex (grammar with the artifact name excluding only
`:`), `resolveObjectKey` returns the template unchanged, for every
environment and job — the no-placeholder path is the identity, not an
error. -/
theorem resolveObjectKey_noPlaceholder_identity (env : Env) (objectKey : String)
    (job : Option CodePipelineJob) (h : placeholderFirstMatch objectKey.data = none) :
    resolveObjectKey env objectKey job = .ok objectKey := by
  simp only [resolveObjectKey, h]

/-- C10: for every template with no placeholder match, `resolveObjectKey`
succeeds with the template itself and its result does not depend on the
environment (no store fetch can influence it) nor on the job argument —
in particular the job may be `none` (the `null` of the repository's test). -/
theorem resolveObjectKey_noMatch_independent (env1 env2 : Env) (objectKey : String)
    (job1 job2 : Option CodePipelineJob)
    (h : placeholderFirstMatch objectKey.data = none) :
    resolveObjectKey env1 objectKey job1 = .ok objectKey ∧
      resolveObjectKey env1 objectKey job1 = resolveObjectKey env2 objectKey job2 := by
  have e1 : resolveObjectKey env1 objectKey job1 = .ok objectKey := by
    simp only [resolveObjectKey, h]
  have e2 : resolveObjectKey env2 objectKey job2 = .ok objectKey := by
    simp only [resolveObjectKey, h]
  exact ⟨e1, e1.trans e2.symm⟩

/-- C1 (amended): when the first placeholder match has no field name, and the
artifact resolves and the member is fetched, `resolveObjectKey` returns the
UTF-8 decoding of the fetched bytes by itself — the template text before and
after the placeholder is discarded, not preserved. -/
theorem resolveObjectKey_noField (env : Env) (objectKey : String) (job : Option CodePipelineJob)
    (m : PlaceholderMatch) (loc : CodePipelineS3Location) (body : List Nat)
    (hm : placeholderFirstMatch objectKey.data = some m)
    (hd : m.group4 = none)
    (hloc : getS3LocationForInputArtifact (String.mk m.group1) job = .ok (some loc))
    (hbody : getBodyFromZippedS3Object env loc.bucketName loc.objectKey (String.mk m.group2) =
      .ok body) :
    resolveObjectKey env objectKey job = .ok (env.utf8 body) := by
  simp only [resolveObjectKey, hm, hloc, hbody, hd, bufferFalsy]
  simp

/-- C3 (amended): in the field path, once the placeholder is parsed, the
artifact located, the member fetched and JSON-parsed, and the field read,
`resolveObjectKey` fails with the `Invalid resource for key '...` error
exactly when the field's value is falsy (which includes the legitimate values
`0`, `""` and `false` as well as the `undefined` of an absent key); otherwise
it coerces the value to a string and substitutes it for the placeholder via
JavaScript `replace`, which interprets the replacement patterns `$$`, `$&`
and the backquote/quote forms occurring in the value. -/
theorem resolveObjectKey_fieldResolution (env : Env) (objectKey : String)
    (job : Option CodePipelineJob) (m : PlaceholderMatch) (kChars : List Char)
    (loc : CodePipelineS3Location) (body : List Nat) (json : JsValue) (v : JsValue)
    (hm : placeholderFirstMatch objectKey.data = some m)
    (hk : m.group4 = some kChars)
    (hloc : getS3LocationForInputArtifact (String.mk m.group1) job = .ok (some loc))
    (hbody : getBodyFromZippedS3Object env loc.bucketName loc.objectKey (String.mk m.group2) =
      .ok body)
    (hjson : env.jsonParse (env.utf8 body) = some json)
    (hfield : jsGetField json (String.mk kChars) = .ok v) :
    (resolveObjectKey env objectKey job =
        .error (.thrown ("Invalid resource for key '" ++ objectKey)) ↔ jsFalsy v = true)
    ∧ (jsFalsy v = false →
        resolveObjectKey env objectKey job =
          .ok (String.mk (jsReplace objectKey.data m.matched (jsToString v).data)))
    ∧ jsFalsy (JsValue.num 0) = true ∧ jsFalsy (JsValue.str "") = true
    ∧ jsFalsy (JsValue.bool false) = true ∧ jsFalsy JsValue.undefined = true := by
  have hres : resolveObjectKey env objectKey job =
      if jsFalsy v then .error (.thrown ("Invalid resource for key '" ++ objectKey))
      else .ok (String.mk (jsReplace objectKey.data m.matched (jsToString v).data)) := by
    simp only [resolveObjectKey, hm, hloc, hbody, hk, hjson, hfield, bufferFalsy]
    simp
  refine ⟨⟨?_, ?_⟩, ?_, rfl, rfl, rfl, rfl⟩
  · intro h
    by_contra hf
    have hff : jsFalsy v = false := by
      cases hjf : jsFalsy v with
      | true => exact absurd hjf hf
      | false => rfl
    rw [hres, hff] at h
    simp at h
  · intro h
    rw [hres, h]
    simp
  · intro h
    rw [hres, h]
    simp

theorem copyRegexMatch_sound {cs a f : List Char}
    (h : copyRegexMatch cs = some (a, f)) :
    cs = a ++ ':' :: ':' :: f ∧ a ≠ [] ∧ (∀ c ∈ a, c ≠ ':') ∧ f ≠ [] ∧
      ∀ c ∈ f, isLineTerminator c = false := by
  simp only [copyRegexMatch] at h
  by_cases ha : cs.takeWhile notColon = []
  · rw [if_pos ha] at h; cases h
  · rw [if_neg ha] at h
    cases hr : cs.dropWhile notColon with
    | nil => simp [hr] at h
    | cons c0 r1 =>
      cases r1 with
      | nil => simp [hr] at h
      | cons c1 rest =>
        simp only [hr] at h
        by_cases h01 : c0 = ':' ∧ c1 = ':'
        · rw [if_pos h01] at h
          by_cases h2 : rest ≠ [] ∧ rest.all (fun c => !isLineTerminator c)
          · rw [if_pos h2] at h
            injection h with h3
            injection h3 with h4 h5
            subst h4; subst h5
            obtain ⟨hc0, hc1⟩ := h01; subst hc0; subst hc1
            refine ⟨?_, ha, ?_, h2.1, ?_⟩
            · have hsplit : cs.takeWhile notColon ++ cs.dropWhile notColon = cs :=
                List.takeWhile_append_dropWhile notColon cs
              rw [hr] at hsplit
              exact hsplit.symm
            · intro c hc
              exact notColon_iff.mp (List.mem_takeWhile_imp hc)
            · intro c hc
              have := List.all_eq_true.mp h2.2 c hc
              simpa using this
          · rw [if_neg h2] at h; cases h
        · rw [if_neg h01] at h; cases h

theorem copyRegexMatch_complete (a f : List Char) (ha1 : a ≠ []) (ha2 : ∀ c ∈ a, c ≠ ':')
    (hf1 : f ≠ []) (hf2 : ∀ c ∈ f, isLineTerminator c = false) :
    copyRegexMatch (a ++ ':' :: ':' :: f) = some (a, f) := by
  have hstop := takeWhile_stop notColon a ':' (':' :: f)
    (fun x hx => notColon_iff.mpr (ha2 x hx)) (by simp [notColon])
  simp only [copyRegexMatch]
  rw [hstop.1, hstop.2, if_neg ha1]
  have hall : f.all (fun c => !isLineTerminator c) = true := by
    rw [List.all_eq_true]
    intro c hc
    simp [hf2 c hc]
  simp [hall, hf1]

/-- C4: for a path `a::f` whose artifact resolves to a store location and
whose archive member `f` is fetched as `body`, `copyArtifactResourceToS3`
succeeds and the store afterwards holds exactly `body` — the decompressed
member bytes, byte for byte — as the object at the destination bucket and
key. -/
theorem copyArtifactResourceToS3_roundTrip (env : Env) (a f B K : String)
    (j : CodePipelineJob) (loc : CodePipelineS3Location) (body : List Nat)
    (ha : a.data ≠ [] ∧ ∀ c ∈ a.data, c ≠ ':')
    (hf : f.data ≠ [] ∧ ∀ c ∈ f.data, isLineTerminator c = false)
    (hloc : getS3LocationForInputArtifact a (some j) = .ok (some loc))
    (hbody : getBodyFromZippedS3Object env loc.bucketName loc.objectKey f = .ok body) :
    copyArtifactResourceToS3 env (a ++ "::" ++ f) B K (some j) =
      .ok (putStoreObject env B K body) ∧
    s3GetObject (putStoreObject env B K body) B K = some body := by
  have hdata : (a ++ "::" ++ f).data = a.data ++ ':' :: ':' :: f.data := by
    rw [String.data_append, String.data_append]
    simp [List.append_assoc]
  have hmatch : copyRegexMatch (a ++ "::" ++ f).data = some (a.data, f.data) := by
    rw [hdata]
    exact copyRegexMatch_complete a.data f.data ha.1 ha.2 hf.1 hf.2
  constructor
  · simp only [copyArtifactResourceToS3, hmatch,
      show String.mk a.data = a from rfl, show String.mk f.data = f from rfl,
      hloc, hbody, bufferFalsy]
    simp
  · simp [s3GetObject, putStoreObject, List.find?]

/-- C6: `copyArtifactResourceToS3` fails with the
`Unable to resolve resource artifact location` error exactly for the object
paths rejected by the anchored regex `^([^:]+)::(.+)$`; a path matches
exactly when it decomposes as a non-empty colon-free artifact name, `::`, and
a non-empty line-terminator-free remainder (the file name, which may itself
contain `:`); and the artifact name so parsed is the one looked up on the
job. -/
theorem copyArtifactResourceToS3_invalidReference (env : Env) (path B K : String)
    (job : Option CodePipelineJob) :
    (copyRegexMatch path.data = none →
      copyArtifactResourceToS3 env path B K job =
        .error (.thrown ("Unable to resolve resource artifact location from '" ++ path ++ "'")))
    ∧ (∀ a f, copyRegexMatch path.data = some (a, f) ↔
        (path.data = a ++ ':' :: ':' :: f ∧ a ≠ [] ∧ (∀ c ∈ a, c ≠ ':') ∧ f ≠ [] ∧
          ∀ c ∈ f, isLineTerminator c = false))
    ∧ (∀ a f, copyRegexMatch path.data = some (a, f) →
        getS3LocationForInputArtifact (String.mk a) job = .ok none →
        copyArtifactResourceToS3 env path B K job =
          .error (.thrown ("Invalid resource for key '" ++ path))) := by
  refine ⟨?_, ?_, ?_⟩
  · intro h
    simp only [copyArtifactResourceToS3, h]
  · intro a f
    constructor
    · intro h
      have hdecomp := copyRegexMatch_sound h
      exact hdecomp
    · rintro ⟨hdecomp, ha1, ha2, hf1, hf2⟩
      rw [hdecomp]
      exact copyRegexMatch_complete a f ha1 ha2 hf1 hf2
  · intro a f hmatch hnone
    simp only [copyArtifactResourceToS3, hmatch, hnone]

/-- C8 (amended): `getS3PutConfigurationFromJob` runs `JSON.parse` on the
job's `UserParameters` string and propagates a parse failure, but performs no
field validation at all: any successfully parsed value is returned as the
configuration, whether or not `ObjectPath`, `BucketName` or `ObjectKey` are
present. -/
theorem getS3PutConfigurationFromJob_parseOnly (env : Env) (job : CodePipelineJob) :
    (env.jsonParse job.data.actionConfiguration.configuration.UserParameters = none →
      getS3PutConfigurationFromJob env job =
        .error (.jsonParseError job.data.actionConfiguration.configuration.UserParameters))
    ∧ ∀ v, env.jsonParse job.data.actionConfiguration.configuration.UserParameters = some v →
        getS3PutConfigurationFromJob env job = .ok v := by
  constructor
  · intro h
    simp only [getS3PutConfigurationFromJob, h]
  · intro v h
    simp only [getS3PutConfigurationFromJob, h]

/-- C9: when a job's input-artifact list decomposes as `pre ++ a1 :: rest`
with no entry of `pre` named `name`, `a1` named `name`, and a further
duplicate of `name` somewhere in `rest`, the lookup returns the store
location of `a1` — the first entry with that name in list order, under exact
string equality. -/
theorem getS3LocationForInputArtifact_firstDuplicate (name : String) (j : CodePipelineJob)
    (pre : List InputArtifact) (a1 : InputArtifact) (rest : List InputArtifact)
    (hlist : j.data.inputArtifacts = pre ++ a1 :: rest)
    (hpre : ∀ x ∈ pre, x.name ≠ name) (ha1 : a1.name = name)
    (_hdup : ∃ a2 ∈ rest, a2.name = name) :
    getS3LocationForInputArtifact name (some j) = .ok (some a1.location.s3Location) := by
  have hfind : ∀ p : List InputArtifact, (∀ x ∈ p, (x.name == name) = false) →
      (p ++ a1 :: rest).find? (fun artifact => artifact.name == name) = some a1 := by
    intro p
    induction p with
    | nil =>
      intro _
      simp [List.find?, beq_iff_eq.mpr ha1]
    | cons x xs ih =>
      intro hp
      have hx := hp x (by simp)
      simp only [List.cons_append, List.find?, hx]
      exact ih (fun y hy => hp y (by simp [hy]))
  have hprebeq : ∀ x ∈ pre, (x.name == name) = false := by
    intro x hx
    rw [beq_eq_false_iff_ne]
    exact hpre x hx
  simp only [getS3LocationForInputArtifact, hlist, hfind pre hprebeq]

/-- C7 (code bug): on a failing invocation (here: `UserParameters` is not
valid JSON) the try body of `handlerAsync` rejects with the original error,
but the catch block reads `job.jobId` although `job` is block-scoped to the
try block, so the invocation ends in `ReferenceError: job is not defined`
and no `putJobFailureResult` report reaches the pipeline. -/
theorem handlerAsync_failureReportLost :
    handlerAsyncTry envFailing { job := some jobA } = .error (.jsonParseError "\x7b\x7d") ∧
    handlerAsync envFailing { job := some jobA } { awsRequestId := "req-1" } =
      .error (.referenceError "job is not defined") :=
  ⟨rfl, rfl⟩

/-- C1, counterexample: with artifact `A` resolving and member `f` holding
the byte `49` (`"1"`), the template `x-${A::f}` resolves to just `"1"` — not
to `"x-1"`, which is what replacing only the placeholder inside the template
(the computed `jsReplace`) would give. -/
theorem resolveObjectKey_noField_discardsTemplate_cex :
    resolveObjectKey envText "x-$\x7bA::f\x7d" (some jobA) = .ok "1" ∧
    String.mk (jsReplace "x-$\x7bA::f\x7d".data "$\x7bA::f\x7d".data "1".data) = "x-1" ∧
    ("1" : String) ≠ "x-1" :=
  ⟨rfl, rfl, by decide⟩

/-- C1, witness: the amended no-field theorem applied at the same concrete
input, concluding the UTF-8 text of the member bytes `[49]`. -/
theorem resolveObjectKey_noField_witness :
    resolveObjectKey envText "x-$\x7bA::f\x7d" (some jobA) = .ok (envText.utf8 [49]) :=
  resolveObjectKey_noField envText "x-$\x7bA::f\x7d" (some jobA)
    { matched := "$\x7bA::f\x7d".data, group1 := "A".data, group2 := "f".data, group4 := none }
    { bucketName := "b", objectKey := "k" } [49] rfl rfl rfl rfl

/-- C2, counterexample: the string `${x}y::f}` contains no placeholder of the
claimed grammar (whose artifact name excludes `}`), yet the code's regex
matches it — with artifact name `x}y` — and `resolveObjectKey` processes it
instead of returning the template unchanged. -/
theorem resolveObjectKey_grammar_cex :
    specContainsPlaceholderB "$\x7bx\x7dy::f\x7d".data = false ∧
    placeholderFirstMatch "$\x7bx\x7dy::f\x7d".data =
      some { matched := "$\x7bx\x7dy::f\x7d".data, group1 := "x\x7dy".data,
             group2 := "f".data, group4 := none } ∧
    resolveObjectKey envText "$\x7bx\x7dy::f\x7d" (some jobEmpty) =
      .error (.thrown "Invalid resource for key '$\x7bx\x7dy::f\x7d'") :=
  ⟨rfl, rfl, rfl⟩

/-- C2, witness: the recognition theorem applied to `a${b::c}d`, whose
leftmost (and only) code-grammar placeholder is `${b::c}`. -/
theorem resolveObjectKey_placeholder_recognition_witness :
    CodeShape "$\x7bb::c\x7d".data ∧
    ∃ pre post, "a$\x7bb::c\x7dd".data = pre ++ "$\x7bb::c\x7d".data ++ post ∧
      ∀ pre2 p2 post2, "a$\x7bb::c\x7dd".data = pre2 ++ p2 ++ post2 → CodeShape p2 →
        pre.length ≤ pre2.length :=
  (resolveObjectKey_placeholder_recognition "a$\x7bb::c\x7dd").2.1
    { matched := "$\x7bb::c\x7d".data, group1 := "b".data, group2 := "c".data, group4 := none }
    rfl

/-- C3, counterexample: a field whose JSON value is the string `$$` is truthy
and is substituted, but JavaScript `replace` interprets `$$` as an escaped
`$`, so the result is `a-$-b` — not `a-$$-b`, the template with the coerced
value substituted for the placeholder. -/
theorem resolveObjectKey_dollarPattern_cex :
    resolveObjectKey envDollar "a-$\x7bA::f.json::k\x7d-b" (some jobA) = .ok "a-$-b" ∧
    jsToString (JsValue.str "$$") = "$$" ∧
    ("a-$-b" : String) ≠ "a-$$-b" :=
  ⟨rfl, rfl, by decide⟩

/-- C3, witness: the amended field-resolution theorem applied to the
repository's own test fixture (`build.json` holding `{"version":"1"}`),
concluding `templates/template-1.yaml`. -/
theorem resolveObjectKey_fieldResolution_witness :
    resolveObjectKey envVersion "templates/template-$\x7bA::build.json::version\x7d.yaml"
      (some jobA) = .ok "templates/template-1.yaml" :=
  ((resolveObjectKey_fieldResolution envVersion
      "templates/template-$\x7bA::build.json::version\x7d.yaml" (some jobA)
      { matched := "$\x7bA::build.json::version\x7d".data, group1 := "A".data,
        group2 := "build.json".data, group4 := some "version".data }
      "version".data { bucketName := "b", objectKey := "k" } (bytesOfAscii jsonTextVersion)
      (JsValue.obj [("version", JsValue.str "1")]) (JsValue.str "1")
      rfl rfl rfl rfl rfl rfl).2.1 rfl).trans rfl

/-- C4, witness: copying `A::f` out of the concrete archive writes the member
bytes `[49]` to the destination, byte for byte. -/
theorem copyArtifactResourceToS3_roundTrip_witness :
    copyArtifactResourceToS3 envText "A::f" "destBucket" "destKey" (some jobA) =
      .ok (putStoreObject envText "destBucket" "destKey" [49]) ∧
    s3GetObject (putStoreObject envText "destBucket" "destKey" [49]) "destBucket" "destKey" =
      some [49] :=
  copyArtifactResourceToS3_roundTrip envText "A" "f" "destBucket" "destKey" jobA
    { bucketName := "b", objectKey := "k" } [49]
    ⟨by decide, by decide⟩ ⟨by decide, by decide⟩ rfl rfl

/-- C5, counterexample: `k-${p}q::r}` contains no placeholder of the spec's
grammar, yet `resolveObjectKey` does not return it unchanged — the code's
regex matches `${p}q::r}` and the resolution fails on the artifact `p}q`. -/
theorem resolveObjectKey_specNoPlaceholder_cex :
    specContainsPlaceholderB "k-$\x7bp\x7dq::r\x7d".data = false ∧
    resolveObjectKey envText "k-$\x7bp\x7dq::r\x7d" (some jobEmpty) =
      .error (.thrown "Invalid resource for key 'k-$\x7bp\x7dq::r\x7d'") :=
  ⟨rfl, rfl⟩

/-- C5, witness: the amended identity theorem applied to a template with no
regex match. -/
theorem resolveObjectKey_noPlaceholder_identity_witness :
    resolveObjectKey envFailing "plain-object-key.yaml" (some jobEmpty) =
      .ok "plain-object-key.yaml" :=
  resolveObjectKey_noPlaceholder_identity envFailing "plain-object-key.yaml" (some jobEmpty) rfl

/-- C6, witness: `ArtifactOnly` (no `::` separator) is rejected with the
`Unable to resolve resource artifact location` error. -/
theorem copyArtifactResourceToS3_invalidReference_witness :
    copyArtifactResourceToS3 envFailing "ArtifactOnly" "db" "dk" (some jobEmpty) =
      .error (.thrown "Unable to resolve resource artifact location from 'ArtifactOnly'") :=
  (copyArtifactResourceToS3_invalidReference envFailing "ArtifactOnly" "db" "dk"
    (some jobEmpty)).1 rfl

/-- C8, counterexample: `UserParameters` equal to `{}` is valid JSON with all
three required fields missing, and `getS3PutConfigurationFromJob` succeeds
with the empty object — no `InvalidConfiguration` failure occurs; the fields
read as `undefined` downstream. -/
theorem getS3PutConfigurationFromJob_missingFields_cex :
    getS3PutConfigurationFromJob envEmptyObj jobA = .ok (JsValue.obj []) ∧
    jsGetField (JsValue.obj []) "ObjectPath" = .ok JsValue.undefined ∧
    jsGetField (JsValue.obj []) "BucketName" = .ok JsValue.undefined ∧
    jsGetField (JsValue.obj []) "ObjectKey" = .ok JsValue.undefined :=
  ⟨rfl, rfl, rfl, rfl⟩

/-- C8, witness: the amended parse-only theorem applied to the `{}`
configuration. -/
theorem getS3PutConfigurationFromJob_parseOnly_witness :
    getS3PutConfigurationFromJob envEmptyObj jobA = .ok (JsValue.obj []) :=
  (getS3PutConfigurationFromJob_parseOnly envEmptyObj jobA).2 (JsValue.obj []) rfl

/-- C9, witness: on a job with two artifacts named `A`, the first one's
location (`b1`, `k1`) is returned. -/
theorem getS3LocationForInputArtifact_firstDuplicate_witness :
    getS3LocationForInputArtifact "A" (some jobDup) =
      .ok (some { bucketName := "b1", objectKey := "k1" }) :=
  getS3LocationForInputArtifact_firstDuplicate "A" jobDup
    [{ name := "B", location := { s3Location := { bucketName := "b0", objectKey := "k0" } } }]
    { name := "A", location := { s3Location := { bucketName := "b1", objectKey := "k1" } } }
    [{ name := "A", location := { s3Location := { bucketName := "b2", objectKey := "k2" } } }]
    rfl (by decide) rfl (by decide)

/-- C10, witness: the independence theorem applied with a `none` job (the
`null` of the repository's test) and a failing environment on one side and a
populated environment and job on the other. -/
theorem resolveObjectKey_noMatch_independent_witness :
    resolveObjectKey envFailing "templates/somefile.yaml" none = .ok "templates/somefile.yaml" ∧
    resolveObjectKey envFailing "templates/somefile.yaml" none =
      resolveObjectKey envText "templates/somefile.yaml" (some jobA) :=
  resolveObjectKey_noMatch_independent envFailing envText "templates/somefile.yaml" none
    (some jobA) rfl
